import Mathlib

/-!
# Timezones watch face (`src/timezones.c`)

A shallow embedding of the watch face's redraw callback `timezone_layer_update`
and of the layout loop of `handle_init`, followed by theorems about them.

C `int` values are mathematical integers here; `/` and `%` of C are the
truncating `Int.tdiv` and `Int.tmod`.  Signed overflow is undefined in C, so the
embedding describes the code wherever its arithmetic is defined; for the times
and offsets a watch is configured with, every quantity stays within a few
thousand.
-/

namespace Timezones

/-! ## Host types -/

/-- Modelled from the spec: the host's `PblTm` is declared in `pebble_os.h`,
which is not part of the sources; the spec's WallClock carries an hour and a
minute, the two fields the program reads and writes. -/
structure PblTm where
  tm_hour : Int
  tm_min : Int
deriving DecidableEq, Repr

/-- Modelled from the spec: the two colours of the monochrome display
(`GColorBlack`, `GColorWhite` of the host header). -/
inductive GColor where
  | GColorBlack
  | GColorWhite
deriving DecidableEq, Repr

/-- Modelled from the spec: a rectangle, position and size, as built by the
host's `GRect(x, y, w, h)`. -/
structure GRect where
  x : Int
  y : Int
  w : Int
  h : Int
deriving DecidableEq, Repr

/-- Modelled from the spec: the part of the host's `Layer` the callback reads,
`me->bounds`. -/
structure Layer where
  bounds : GRect
deriving DecidableEq, Repr

/-- The two font handles of the program, `font_thin` and `font_thick`. -/
inductive GFont where
  | font_thin
  | font_thick
deriving DecidableEq, Repr

/-- Modelled from the spec: text overflow modes of the host drawing surface. -/
inductive GTextOverflowMode where
  | GTextOverflowModeWordWrap
  | GTextOverflowModeTrailingEllipsis
deriving DecidableEq, Repr

/-- Modelled from the spec: text alignments of the host drawing surface. -/
inductive GTextAlignment where
  | GTextAlignmentLeft
  | GTextAlignmentCenter
  | GTextAlignmentRight
deriving DecidableEq, Repr

/-- One call on the host drawing surface, in the order the callback makes them. -/
inductive DrawOp where
  | graphics_context_set_fill_color (c : GColor)
  | graphics_context_set_text_color (c : GColor)
  | graphics_fill_rect (r : GRect) (radius : Int) (corners : Int)
  | graphics_text_draw (text : String) (font : GFont) (box : GRect)
      (overflow : GTextOverflowMode) (align : GTextAlignment)
deriving DecidableEq, Repr

/-! ## Configuration (lines 38-70) -/

/-- The record `timezone_t`: display name, GMT offset in minutes, layer. -/
structure timezone_t where
  name : String
  offset : Int
  layer : Layer
deriving DecidableEq, Repr

/-- The shipped `gmt_offset = +9 * 60`. -/
def gmt_offset : Int := 9 * 60

def PEBBLE_SCREEN_WIDTH : Int := 144

def PEBBLE_SCREEN_HEIGHT : Int := 168

/-- The shipped `NUM_TIMEZONES`. -/
def NUM_TIMEZONES : Nat := 3

/-- The macro `LAYER_HEIGHT`, with the zone count `n` it divides by made
explicit (C integer division). -/
def LAYER_HEIGHT (n : Nat) : Int := PEBBLE_SCREEN_HEIGHT.tdiv (n : Int)

/-- A layer of static storage before `handle_init` ran: all zero. -/
def Layer.zero : Layer := ⟨⟨0, 0, 0, 0⟩⟩

/-- The shipped table `timezones`. -/
def timezones : List timezone_t :=
  [ { name := "Sao Paulo", offset := -3 * 60, layer := Layer.zero },
    { name := "Tokyo", offset := 9 * 60, layer := Layer.zero },
    { name := "Eindhoven", offset := 1 * 60, layer := Layer.zero } ]

/-! ## `timezone_layer_update` (lines 79-146) -/

/-- Lines 90-100: add the minute part of the offset difference to `tm_min`,
then carry into `tm_hour` when `tm_min > 60`, or borrow when `tm_min < 0`.
`gmt` is the build-time constant `gmt_offset`. -/
def adjust_min (gmt : Int) (tz : timezone_t) (now : PblTm) : PblTm :=
  let now : PblTm := { now with tm_min := now.tm_min + (tz.offset - gmt).tmod 60 }
  if now.tm_min > 60 then
    { tm_hour := now.tm_hour + 1, tm_min := now.tm_min - 60 }
  else if now.tm_min < 0 then
    { tm_hour := now.tm_hour - 1, tm_min := now.tm_min + 60 }
  else
    now

/-- Lines 102-106: add the hour part of the offset difference to `tm_hour`,
subtract 24 when `tm_hour > 24`, then add 24 when `tm_hour < 0`. -/
def adjust_hour (gmt : Int) (tz : timezone_t) (now : PblTm) : PblTm :=
  let now : PblTm := { now with tm_hour := now.tm_hour + (tz.offset - gmt).tdiv 60 }
  let now : PblTm := if now.tm_hour > 24 then { now with tm_hour := now.tm_hour - 24 } else now
  let now : PblTm := if now.tm_hour < 0 then { now with tm_hour := now.tm_hour + 24 } else now
  now

/-- Lines 90-106: the value of `now` at the time it is formatted, the zone's
local time (the spec's computeLocalTime). -/
def local_now (gmt : Int) (tz : timezone_t) (now : PblTm) : PblTm :=
  adjust_hour gmt tz (adjust_min gmt tz now)

/-- Line 117: `night_time = (now.tm_hour > 17 || now.tm_hour < 6)`. -/
def night_time (tm_hour : Int) : Bool :=
  decide (tm_hour > 17) || decide (tm_hour < 6)

/-- The callback `timezone_layer_update` for the zone `tz` (whose layer is
`me`), run on the shared `now`: the value of `now` on return and the calls made
on the drawing surface.  The host's `string_format_time` (format, time) is a
parameter. -/
def timezone_layer_update (string_format_time : String → PblTm → String) (gmt : Int)
    (tz : timezone_t) (now : PblTm) : PblTm × List DrawOp :=
  let orig_hour := now.tm_hour
  let orig_min := now.tm_min
  let now := local_now gmt tz now
  let buf := string_format_time "%H:%M" now
  let night := night_time now.tm_hour
  let now : PblTm := { now with tm_hour := orig_hour, tm_min := orig_min }
  let w := tz.layer.bounds.w
  let h := tz.layer.bounds.h
  (now,
   [ DrawOp.graphics_context_set_fill_color
       (if night then GColor.GColorBlack else GColor.GColorWhite),
     DrawOp.graphics_context_set_text_color
       (if !night then GColor.GColorBlack else GColor.GColorWhite),
     DrawOp.graphics_fill_rect ⟨0, 0, w, h⟩ 0 0,
     DrawOp.graphics_text_draw tz.name GFont.font_thin ⟨0, 0, w, h.tdiv 3⟩
       GTextOverflowMode.GTextOverflowModeTrailingEllipsis GTextAlignment.GTextAlignmentCenter,
     DrawOp.graphics_text_draw buf GFont.font_thick ⟨0, h.tdiv 3, w, (2 * h).tdiv 3⟩
       GTextOverflowMode.GTextOverflowModeTrailingEllipsis GTextAlignment.GTextAlignmentCenter ])

/-! ## `handle_init` (lines 189-200) -/

/-- The frames that the loop of `handle_init` gives to `layer_init`, in loop
order, for a zone count `n` (`NUM_TIMEZONES`). -/
def handle_init (n : Nat) : List GRect :=
  (List.range n).map fun (i : Nat) =>
    ⟨0, (i : Int) * LAYER_HEIGHT n, PEBBLE_SCREEN_WIDTH, LAYER_HEIGHT n⟩

/-! ## Vocabulary of the statements -/

/-- A base time as the host delivers it: hour 0..23, minute 0..59. -/
def PblTm.valid (t : PblTm) : Prop :=
  0 ≤ t.tm_hour ∧ t.tm_hour ≤ 23 ∧ 0 ≤ t.tm_min ∧ t.tm_min ≤ 59

instance (t : PblTm) : Decidable t.valid := by
  unfold PblTm.valid; infer_instance

/-- The pixel `(px, py)` lies in the rectangle `r`. -/
def GRect.covers (r : GRect) (px py : Int) : Prop :=
  r.x ≤ px ∧ px < r.x + r.w ∧ r.y ≤ py ∧ py < r.y + r.h

instance (r : GRect) (px py : Int) : Decidable (r.covers px py) := by
  unfold GRect.covers; infer_instance

/-- The whole display. -/
def screen : GRect := ⟨0, 0, PEBBLE_SCREEN_WIDTH, PEBBLE_SCREEN_HEIGHT⟩

/-- A zone record with the given offset, for stating examples. -/
def zone (name : String) (offset : Int) : timezone_t :=
  { name := name, offset := offset, layer := Layer.zero }

/-! ## Auxiliary facts -/

theorem mem_handle_init (n : Nat) (r : GRect) :
    r ∈ handle_init n ↔
      ∃ i : Nat, i < n ∧
        r = ⟨0, (i : Int) * LAYER_HEIGHT n, PEBBLE_SCREEN_WIDTH, LAYER_HEIGHT n⟩ := by
  unfold handle_init
  simp only [List.mem_map, List.mem_range]
  constructor
  · rintro ⟨i, hi, rfl⟩
    exact ⟨i, hi, rfl⟩
  · rintro ⟨i, hi, rfl⟩
    exact ⟨i, hi, rfl⟩

theorem LAYER_HEIGHT_eq (n : Nat) : LAYER_HEIGHT n = 168 / (n : Int) := by
  unfold LAYER_HEIGHT PEBBLE_SCREEN_HEIGHT
  exact Int.tdiv_eq_ediv (by norm_num) (Int.ofNat_nonneg n)

theorem LAYER_HEIGHT_nonneg (n : Nat) : 0 ≤ LAYER_HEIGHT n := by
  rw [LAYER_HEIGHT_eq]
  exact Int.ediv_nonneg (by norm_num) (Int.ofNat_nonneg n)

theorem LAYER_HEIGHT_mul_le (n : Nat) (hn : 1 ≤ n) : (n : Int) * LAYER_HEIGHT n ≤ 168 := by
  rw [LAYER_HEIGHT_eq]
  have hpos : (0 : Int) < n := by exact_mod_cast hn
  exact Int.mul_ediv_self_le (by omega)

/-- The two parts of an offset difference, as C splits it, add up to it. -/
theorem tmod_tdiv_sixty (d : Int) : d.tmod 60 + 60 * d.tdiv 60 = d :=
  Int.tmod_add_tdiv d 60

/-! ## Local time -/

/-- C1 (the code at a failing input): with the shipped `gmt_offset` and a zone
at +10:30 (offset difference 90 minutes), the valid base time 23:30 is turned
into hour 24, minute 60, both outside the ranges 0..23 and 0..59. -/
theorem local_now_out_of_range :
    PblTm.valid ⟨23, 30⟩ ∧ -1440 ≤ (630 : Int) - gmt_offset ∧ (630 : Int) - gmt_offset ≤ 1440 ∧
      local_now gmt_offset (zone "Lord Howe" 630) ⟨23, 30⟩ = ⟨24, 60⟩ ∧
      ¬ (local_now gmt_offset (zone "Lord Howe" 630) ⟨23, 30⟩).valid := by
  decide

/-- C2 (the code at a failing input): base 5:59 with base offset 0 and zone
offset +1 reaches minute 60 exactly; the code keeps hour 5 and minute 60 and
does not give 6:00. -/
theorem local_now_minute_sixty (name : String) (layer : Layer) :
    (59 : Int) + ((1 : Int) - 0).tmod 60 = 60 ∧
      local_now 0 ⟨name, 1, layer⟩ ⟨5, 59⟩ = ⟨5, 60⟩ ∧
      local_now 0 ⟨name, 1, layer⟩ ⟨5, 59⟩ ≠ ⟨6, 0⟩ := by
  refine ⟨by decide, rfl, ?_⟩
  have h : local_now 0 ⟨name, 1, layer⟩ ⟨5, 59⟩ = ⟨5, 60⟩ := rfl
  rw [h]
  decide

/-- C3: the worked examples of whole-hour shifts: base 10:30 with base offset 0
and zone offset +540 gives 19:30, and base 0:10 with base offset 0 and zone
offset -180 gives 21:10. -/
theorem local_now_whole_hour_examples (name : String) (layer : Layer) :
    local_now 0 ⟨name, 540, layer⟩ ⟨10, 30⟩ = ⟨19, 30⟩ ∧
      local_now 0 ⟨name, -180, layer⟩ ⟨0, 10⟩ = ⟨21, 10⟩ :=
  ⟨rfl, rfl⟩

/-- C4 (the code at a failing input): with the shipped `gmt_offset` and a zone
at +10:00 (offset difference 60 minutes), base 23:00 reaches hour 23 + 1 + 0 = 24
exactly; the code returns hour 24, not 0. -/
theorem local_now_hour_twenty_four (name : String) (layer : Layer) :
    (23 : Int) + ((600 : Int) - gmt_offset).tdiv 60 + 0 = 24 ∧
      (adjust_min gmt_offset ⟨name, 600, layer⟩ ⟨23, 0⟩) = ⟨23, 0⟩ ∧
      local_now gmt_offset ⟨name, 600, layer⟩ ⟨23, 0⟩ = ⟨24, 0⟩ ∧
      (local_now gmt_offset ⟨name, 600, layer⟩ ⟨23, 0⟩).tm_hour ≠ 0 := by
  refine ⟨by decide, rfl, rfl, ?_⟩
  have h : local_now gmt_offset ⟨name, 600, layer⟩ ⟨23, 0⟩ = ⟨24, 0⟩ := rfl
  rw [h]
  decide

/-- C5: under the shipped configuration (`gmt_offset` = +540 and the table
`timezones` with offsets -180, +540, +60), every base time with hour 0..23 and
minute 0..59 gives, for each of the three zones, a local time with hour 0..23
and minute 0..59. -/
theorem local_now_shipped_valid (tz : timezone_t)
    (htz : tz.offset ∈ timezones.map timezone_t.offset) (now : PblTm)
    (hnow : now.valid) : (local_now gmt_offset tz now).valid := by
  obtain ⟨h0, h23, m0, m59⟩ := hnow
  have e1 : ((-3 * 60 : Int) - 9 * 60).tmod 60 = 0 := by decide
  have e2 : ((-3 * 60 : Int) - 9 * 60).tdiv 60 = -12 := by decide
  have e3 : ((9 * 60 : Int) - 9 * 60).tmod 60 = 0 := by decide
  have e4 : ((9 * 60 : Int) - 9 * 60).tdiv 60 = 0 := by decide
  have e5 : ((1 * 60 : Int) - 9 * 60).tmod 60 = 0 := by decide
  have e6 : ((1 * 60 : Int) - 9 * 60).tdiv 60 = -8 := by decide
  simp only [timezones, List.map_cons, List.map_nil, List.mem_cons, List.mem_singleton,
    List.not_mem_nil, or_false] at htz
  rcases htz with h | h | h
  · simp only [local_now, adjust_hour, adjust_min, gmt_offset, PblTm.valid, h, e1, e2]
    split_ifs <;> dsimp only at * <;> omega
  · simp only [local_now, adjust_hour, adjust_min, gmt_offset, PblTm.valid, h, e3, e4]
    split_ifs <;> dsimp only at * <;> omega
  · simp only [local_now, adjust_hour, adjust_min, gmt_offset, PblTm.valid, h, e5, e6]
    split_ifs <;> dsimp only at * <;> omega

theorem local_now_shipped_valid_witness :
    (zone "Sao Paulo" (-3 * 60)).offset ∈ timezones.map timezone_t.offset ∧
      PblTm.valid ⟨2, 45⟩ ∧
      local_now gmt_offset (zone "Sao Paulo" (-3 * 60)) ⟨2, 45⟩ = ⟨14, 45⟩ ∧
      (local_now gmt_offset (zone "Sao Paulo" (-3 * 60)) ⟨2, 45⟩).valid :=
  ⟨by decide, by decide, by decide,
    local_now_shipped_valid (zone "Sao Paulo" (-3 * 60)) (by decide) ⟨2, 45⟩ (by decide)⟩

/-- C10: the offset arithmetic keeps the time of day modulo 24 hours: for every
base time, zone offset and base offset, the computed hour and minute satisfy
hour * 60 + minute ≡ base hour * 60 + base minute + (offset - gmt) mod 1440. -/
theorem local_now_mod_day (gmt : Int) (tz : timezone_t) (now : PblTm) :
    ((local_now gmt tz now).tm_hour * 60 + (local_now gmt tz now).tm_min) % 1440 =
      (now.tm_hour * 60 + now.tm_min + (tz.offset - gmt)) % 1440 := by
  have hd := tmod_tdiv_sixty (tz.offset - gmt)
  simp only [local_now, adjust_hour, adjust_min]
  generalize tz.offset - gmt = d at hd ⊢
  generalize d.tmod 60 = r at hd ⊢
  generalize d.tdiv 60 = q at hd ⊢
  split_ifs <;> dsimp only at * <;> omega

/-! ## Day and night -/

/-- C6: for every integer hour the flag `night_time` is set exactly when
hour > 17 or hour < 6, and clear exactly for 6..17; over the hours 0..23 it is
set for 0..5 and 18..23 and clear for 6..17 (5 night, 6 day, 17 day, 18 night). -/
theorem night_time_iff (hour : Int) :
    (night_time hour = true ↔ (hour > 17 ∨ hour < 6)) ∧
      (night_time hour = false ↔ (6 ≤ hour ∧ hour ≤ 17)) ∧
      (List.range 24).map (fun (k : Nat) => night_time (k : Int)) =
        [true, true, true, true, true, true,
         false, false, false, false, false, false,
         false, false, false, false, false, false,
         true, true, true, true, true, true] ∧
      night_time 5 = true ∧ night_time 6 = false ∧
      night_time 17 = false ∧ night_time 18 = true := by
  refine ⟨?_, ?_, by decide, by decide, by decide, by decide, by decide⟩
  · simp [night_time]
  · simp only [night_time, Bool.or_eq_false_iff, decide_eq_false_iff_not]
    omega

/-! ## Rendering -/

/-- C7: the colours are swapped, never independent: for every zone, time and
region the callback sets fill black and text white when the local hour is
night, fill white and text black when it is day, fills the rectangle
(0, 0, w, h) of the region, and the fill colour differs from the text colour. -/
theorem timezone_layer_update_colours (string_format_time : String → PblTm → String)
    (gmt : Int) (tz : timezone_t) (now : PblTm) :
    ∃ bg fg : GColor,
      (bg, fg) =
        (if night_time (local_now gmt tz now).tm_hour = true
          then (GColor.GColorBlack, GColor.GColorWhite)
          else (GColor.GColorWhite, GColor.GColorBlack)) ∧
      bg ≠ fg ∧
      (timezone_layer_update string_format_time gmt tz now).2 =
        [ DrawOp.graphics_context_set_fill_color bg,
          DrawOp.graphics_context_set_text_color fg,
          DrawOp.graphics_fill_rect ⟨0, 0, tz.layer.bounds.w, tz.layer.bounds.h⟩ 0 0,
          DrawOp.graphics_text_draw tz.name GFont.font_thin
            ⟨0, 0, tz.layer.bounds.w, tz.layer.bounds.h.tdiv 3⟩
            GTextOverflowMode.GTextOverflowModeTrailingEllipsis
            GTextAlignment.GTextAlignmentCenter,
          DrawOp.graphics_text_draw (string_format_time "%H:%M" (local_now gmt tz now))
            GFont.font_thick
            ⟨0, tz.layer.bounds.h.tdiv 3, tz.layer.bounds.w, (2 * tz.layer.bounds.h).tdiv 3⟩
            GTextOverflowMode.GTextOverflowModeTrailingEllipsis
            GTextAlignment.GTextAlignmentCenter ] := by
  cases hn : night_time (local_now gmt tz now).tm_hour
  · refine ⟨GColor.GColorWhite, GColor.GColorBlack, by simp, by decide, ?_⟩
    simp [timezone_layer_update, hn]
  · refine ⟨GColor.GColorBlack, GColor.GColorWhite, by simp, by decide, ?_⟩
    simp [timezone_layer_update, hn]

/-- C9: the callback leaves `now.tm_hour` and `now.tm_min` as they were on
entry, so a second call with the same inputs, run on the `now` the first call
left, makes the same calls on the drawing surface and again leaves `now`
unchanged. -/
theorem timezone_layer_update_idempotent (string_format_time : String → PblTm → String)
    (gmt : Int) (tz : timezone_t) (now : PblTm) :
    (timezone_layer_update string_format_time gmt tz now).1.tm_hour = now.tm_hour ∧
      (timezone_layer_update string_format_time gmt tz now).1.tm_min = now.tm_min ∧
      (timezone_layer_update string_format_time gmt tz
          (timezone_layer_update string_format_time gmt tz now).1).2 =
        (timezone_layer_update string_format_time gmt tz now).2 ∧
      (timezone_layer_update string_format_time gmt tz
          (timezone_layer_update string_format_time gmt tz now).1).1 =
        (timezone_layer_update string_format_time gmt tz now).1 := by
  have h : (timezone_layer_update string_format_time gmt tz now).1 = now := rfl
  refine ⟨rfl, rfl, ?_, ?_⟩
  · rw [h]
  · rw [h, h]

/-! ## Layout -/

/-- C8 (counterexample): with five zones the bands are 33 rows high and end at
row 165, so the screen pixel (0, 167) lies in none of the five regions: the
union of the regions is not the screen. -/
theorem handle_init_five_leaves_gap :
    1 ≤ 5 ∧ screen.covers 0 167 ∧ (∀ r ∈ handle_init 5, ¬ r.covers 0 167) ∧
      ¬ (∀ px py : Int, screen.covers px py → ∃ r ∈ handle_init 5, r.covers px py) := by
  have hgap : ∀ r ∈ handle_init 5, ¬ r.covers 0 167 := by decide
  refine ⟨by decide, by decide, hgap, ?_⟩
  intro hall
  obtain ⟨r, hr, hc⟩ := hall 0 167 (by decide)
  exact hgap r hr hc

/-- C8 (amended): for every zone count N >= 1 the loop of `handle_init` builds
N regions, one per zone, that are pairwise disjoint and lie within the 144x168
screen; their union is the whole screen exactly when N divides 168, as the
shipped N = 3 does. -/
theorem handle_init_regions (n : Nat) (hn : 1 ≤ n) :
    (handle_init n).length = n ∧
      (handle_init n).Pairwise
        (fun a b => ∀ px py : Int, ¬ (a.covers px py ∧ b.covers px py)) ∧
      (∀ r ∈ handle_init n, ∀ px py : Int, r.covers px py → screen.covers px py) ∧
      ((∀ px py : Int, screen.covers px py → ∃ r ∈ handle_init n, r.covers px py) ↔
        (n : Int) ∣ 168) := by
  have hH := LAYER_HEIGHT_nonneg n
  have hle := LAYER_HEIGHT_mul_le n hn
  have hnpos : (0 : Int) < n := by exact_mod_cast hn
  refine ⟨by simp [handle_init], ?_, ?_, ?_, ?_⟩
  · unfold handle_init
    rw [List.pairwise_map]
    refine (List.pairwise_lt_range n).imp ?_
    intro i j hij px py hboth
    obtain ⟨⟨_, _, _, h1⟩, ⟨_, _, h2, _⟩⟩ := hboth
    dsimp only at h1 h2
    have hij1 : (i : Int) + 1 ≤ j := by exact_mod_cast hij
    have := mul_le_mul_of_nonneg_right hij1 hH
    linarith
  · intro r hr px py hc
    obtain ⟨i, hi, rfl⟩ := (mem_handle_init n r).mp hr
    obtain ⟨h1, h2, h3, h4⟩ := hc
    dsimp only at h1 h2 h3 h4
    have hi1 : (i : Int) + 1 ≤ n := by exact_mod_cast hi
    have hi0 : (0 : Int) ≤ i := Int.ofNat_nonneg i
    have hm := mul_le_mul_of_nonneg_right hi1 hH
    have hm0 := mul_nonneg hi0 hH
    unfold screen GRect.covers PEBBLE_SCREEN_HEIGHT
    dsimp only
    refine ⟨h1, h2, ?_, ?_⟩ <;> linarith
  · intro hall
    obtain ⟨r, hr, hc⟩ := hall 0 167 (by decide)
    obtain ⟨i, hi, rfl⟩ := (mem_handle_init n r).mp hr
    obtain ⟨_, _, _, h4⟩ := hc
    dsimp only at h4
    have hi1 : (i : Int) + 1 ≤ n := by exact_mod_cast hi
    have hm := mul_le_mul_of_nonneg_right hi1 hH
    exact ⟨LAYER_HEIGHT n, by linarith⟩
  · intro hdvd px py hc
    obtain ⟨h1, h2, h3, h4⟩ := hc
    simp only [screen, PEBBLE_SCREEN_WIDTH, PEBBLE_SCREEN_HEIGHT] at h1 h2 h3 h4
    have hmul : (n : Int) * LAYER_HEIGHT n = 168 := by
      rw [LAYER_HEIGHT_eq]
      exact Int.mul_ediv_cancel' hdvd
    have hHpos : 0 < LAYER_HEIGHT n := by
      rcases lt_or_eq_of_le hH with h | h
      · exact h
      · rw [← h] at hmul
        simp at hmul
    have hq0 : 0 ≤ py / LAYER_HEIGHT n := Int.ediv_nonneg h3 hH
    have hqn : py / LAYER_HEIGHT n < n := by
      apply Int.ediv_lt_of_lt_mul hHpos
      linarith
    have hlo : py / LAYER_HEIGHT n * LAYER_HEIGHT n ≤ py := Int.ediv_mul_le py (ne_of_gt hHpos)
    have hhi : py < (py / LAYER_HEIGHT n + 1) * LAYER_HEIGHT n :=
      Int.lt_ediv_add_one_mul_self py hHpos
    have hcast : ((py / LAYER_HEIGHT n).toNat : Int) = py / LAYER_HEIGHT n :=
      Int.toNat_of_nonneg hq0
    refine ⟨⟨0, ((py / LAYER_HEIGHT n).toNat : Int) * LAYER_HEIGHT n, PEBBLE_SCREEN_WIDTH,
      LAYER_HEIGHT n⟩, ?_, ?_⟩
    · exact (mem_handle_init n _).mpr ⟨(py / LAYER_HEIGHT n).toNat, by omega, rfl⟩
    · unfold GRect.covers PEBBLE_SCREEN_WIDTH
      dsimp only
      rw [hcast]
      refine ⟨h1, by linarith, hlo, by linarith⟩

theorem handle_init_regions_witness :
    1 ≤ NUM_TIMEZONES ∧
      handle_init NUM_TIMEZONES = [⟨0, 0, 144, 56⟩, ⟨0, 56, 144, 56⟩, ⟨0, 112, 144, 56⟩] ∧
      (handle_init NUM_TIMEZONES).length = NUM_TIMEZONES ∧
      (∀ px py : Int, screen.covers px py →
        ∃ r ∈ handle_init NUM_TIMEZONES, r.covers px py) :=
  ⟨by decide, by decide, (handle_init_regions NUM_TIMEZONES (by decide)).1,
    (handle_init_regions NUM_TIMEZONES (by decide)).2.2.2.mpr (by decide)⟩

end Timezones
